import Mathlib

/-!
Verification development for the realtorca repository.

The repository is a small JavaScript tool that queries a real-estate search
endpoint over several geographic regions and result pages, persists the raw
result pages, and later normalizes, deduplicates, filters, scores and sorts
the collected listing records (`mytool/analyzer.js`, `mytool/auto-search.js`,
and the unnamed configuration module containing `calculateBoundingBox`).

This file gives a shallow embedding of those parts of the code.  JavaScript
values that may be `undefined` are embedded as `Option`; JavaScript string
truthiness (empty string is falsy) is modelled explicitly; numbers are
embedded as `Nat`/`Int`/`Rat`, with a two-point type `JsNum` recording the
one place where the code can produce `Infinity`.  Regular expressions are
embedded by executable matchers that are written pattern-by-pattern from the
source regex literals.
-/

namespace Realtor

/-! ## JavaScript value helpers -/

/-- Truthiness of an optional string, as JavaScript sees it: `undefined`
and the empty string are falsy, every other string is truthy. -/
def strTruthy : Option String → Bool
  | some s => !s.isEmpty
  | none => false

/-- Models the idiom `x || ''`: an absent value becomes the empty string. -/
def jsStrD (o : Option String) : String :=
  match o with
  | some s => s
  | none => ""

/-- Models the idiom `x || d` on numbers: `undefined` and `0` are falsy and
are replaced by the default. -/
def jsOrNat (o : Option Nat) (d : Nat) : Nat :=
  match o with
  | some n => if n = 0 then d else n
  | none => d

/-- Numeric value of a digit string, as produced by `Number` on a string of
decimal digits (`Number('') = 0` is the empty-list case). -/
def natOfDigits (cs : List Char) : Nat :=
  cs.foldl (fun a c => a * 10 + (c.toNat - 48)) 0

/-- Splits a character list on a separator character, like
`String.prototype.split` with a one-character separator. -/
def splitOnChar (sep : Char) : List Char → List (List Char)
  | [] => [[]]
  | c :: rest =>
    let r := splitOnChar sep rest
    if c = sep then [] :: r
    else (c :: r.headD []) :: r.tail

/-! ## JavaScript numbers that may be infinite

`analyzer.js` computes `Math.round(10000 / parseFloat(pricePerSqft))`; when
the rounded price-per-square-foot is `0.00` the division yields `Infinity`.
`JsNum` is a rational together with that single non-finite value. -/

inductive JsNum where
  | fin : ℚ → JsNum
  | inf : JsNum
deriving DecidableEq

/-- `Math.round`: nearest integer, ties rounding up (towards `+∞`). -/
def jsRound (q : ℚ) : ℤ := ⌊q + 1 / 2⌋

/-- `Number.prototype.toFixed(2)` followed by `parseFloat`, on the exact
rational value: round to the nearest multiple of `1/100`, ties away from
zero towards the larger value. -/
def toFixed2 (q : ℚ) : ℚ := (jsRound (q * 100) : ℚ) / 100

/-- Addition on possibly-infinite numbers (a finite number plus `Infinity`
is `Infinity`; the code never adds two infinities before this point). -/
def jsNumAdd : JsNum → JsNum → JsNum
  | .fin a, .fin b => .fin (a + b)
  | _, _ => .inf

/-- `Math.round` extended to possibly-infinite numbers
(`Math.round(Infinity) = Infinity`). -/
def jsNumRound : JsNum → JsNum
  | .fin q => .fin (jsRound q)
  | .inf => .inf

/-- Division of a positive numerator by a nonnegative denominator as
JavaScript performs it: dividing by `+0` yields `+Infinity`. -/
def jsNumDiv (a b : ℚ) : JsNum :=
  if b = 0 then .inf else .fin (a / b)

/-- Comparator order used when sorting listings by
`(a, b) => b.priorityScore - a.priorityScore`: `jsNumLe x y` holds when `x`
sorts no later than `y` would under ascending numeric order with `Infinity`
at the top. -/
def jsNumLe : JsNum → JsNum → Bool
  | .fin a, .fin b => a ≤ b
  | .fin _, .inf => true
  | .inf, .fin _ => false
  | .inf, .inf => true

/-! ## Regular-expression models (`analyzer.js` lines 13–32)

Each source regex is an alternation of pieces of the shape
`literal [-\s]* (suffix₁|…|suffixₙ)`.  A pattern is embedded as the pair of
its literal prefix and its list of literal suffixes; `p?` quantifiers on the
prefix are expanded into two alternatives.  The `i` flag is modelled by
lowercasing the subject text; searching (`String.match` / `RegExp.test`)
means existence of a match at some start position. -/

/-- The characters matched by `\s` (ASCII part; the subject texts are
ASCII). -/
def jsWhitespace (c : Char) : Bool :=
  c = ' ' || c = '\t' || c = '\n' || c = '\r' || c = Char.ofNat 11 || c = Char.ofNat 12

/-- A character matched by the class `[-\s]`. -/
def isSepChar (c : Char) : Bool := c = '-' || jsWhitespace c

/-- Does `literal [-\s]* (suf₁|…|sufₙ)` match at position `i` of `cs`? -/
def matchPartAt (pre : List Char) (sufs : List (List Char)) (cs : List Char) (i : Nat) : Bool :=
  pre.isPrefixOf (cs.drop i) &&
    (let rest := (cs.drop i).drop pre.length
     (List.range (rest.length + 1)).any fun n =>
       ((rest.take n).all isSepChar) && sufs.any fun suf => suf.isPrefixOf (rest.drop n))

/-- Does any alternative of the pattern list match anywhere in `text`
(case-insensitively)? -/
def hasAltMatch (alts : List (List Char × List (List Char))) (text : String) : Bool :=
  let cs := text.toList.map Char.toLower
  (List.range (cs.length + 1)).any fun i => alts.any fun alt => matchPartAt alt.1 alt.2 cs i

/-- Suffix family `(friendly|allowed|ok|welcome)`. -/
def sufFAOW : List (List Char) :=
  ["friendly".toList, "allowed".toList, "ok".toList, "welcome".toList]

/-- Suffix family `(allowed|ok|welcome)`. -/
def sufAOW : List (List Char) :=
  ["allowed".toList, "ok".toList, "welcome".toList]

/-- `PET_FRIENDLY_REGEX = /pet[-\s]*(friendly|allowed|ok|welcome)
|pets?[-\s]*(friendly|allowed|ok|welcome)|dog[-\s]*(friendly|allowed|ok|welcome)
|dogs?[-\s]*(allowed|ok|welcome)|cat[-\s]*(friendly|allowed|ok|welcome)
|cats?[-\s]*(allowed|ok|welcome)/gi`, with each `s?` expanded into the bare
and the `s` alternative. -/
def PET_FRIENDLY_REGEX : List (List Char × List (List Char)) :=
  [("pet".toList, sufFAOW),
   ("pet".toList, sufFAOW), ("pets".toList, sufFAOW),
   ("dog".toList, sufFAOW),
   ("dog".toList, sufAOW), ("dogs".toList, sufAOW),
   ("cat".toList, sufFAOW),
   ("cat".toList, sufAOW), ("cats".toList, sufAOW)]

/-- `CARPET_FREE_REGEX = /carpet[-\s]*free|no[-\s]*carpet|hardwood
|laminate[-\s]*floor|tile[-\s]*floor/gi` (a bare literal is a pattern with
the empty suffix). -/
def CARPET_FREE_REGEX : List (List Char × List (List Char)) :=
  [("carpet".toList, ["free".toList]),
   ("no".toList, ["carpet".toList]),
   ("hardwood".toList, [[]]),
   ("laminate".toList, ["floor".toList]),
   ("tile".toList, ["floor".toList])]

/-- `BASEMENT_REGEX = /basement|bsmt\.?/i` used via `.test`: the optional
trailing period of `bsmt\.?` never changes whether some match exists, so the
test is existence of either literal. -/
def BASEMENT_REGEX_test (s : String) : Bool :=
  let cs := s.toList.map Char.toLower
  (List.range (cs.length + 1)).any fun i =>
    "basement".toList.isPrefixOf (cs.drop i) || "bsmt".toList.isPrefixOf (cs.drop i)

/-- First position `j ≥ start` at which `pat` occurs in `cs`. -/
def findSubstrFrom (pat : List Char) (cs : List Char) (start : Nat) : Option Nat :=
  (List.range (cs.length + 1)).find? fun j => decide (start ≤ j) && pat.isPrefixOf (cs.drop j)

/-- `GARAGE_REGEX = /garage/gi` applied through `RegExp.prototype.test`.
Because the regex carries the `g` flag, `test` is stateful: matching starts
at the regex object's `lastIndex`; on success `lastIndex` moves past the
match, on failure it resets to `0`.  The state is threaded explicitly. -/
def GARAGE_REGEX_test (lastIndex : Nat) (s : String) : Bool × Nat :=
  match findSubstrFrom "garage".toList (s.toList.map Char.toLower) lastIndex with
  | some j => (true, j + 6)
  | none => (false, 0)

/-! ## Raw record data model (`analyzer.js`)

Fields of the raw search-result records that the analyzer reads.  Fields the
analyzer merely copies into the report unchanged and that no verified claim
mentions (`Land`, `InsertedDateUTC`, `TimeOnRealtor`, `RelativeURLEn`,
`Bedrooms`, `BathroomTotal`, `Type`, `SizeInterior`, `ParkingSpaceTotal`)
are omitted from the embedding. -/

structure ParkingEntry where
  Name : Option String
deriving DecidableEq

structure AddressInfo where
  AddressText : Option String
deriving DecidableEq

structure PropertyInfo where
  Address : Option AddressInfo
  LeaseRent : Option String
  Price : Option String
  Parking : Option (List ParkingEntry)
  ParkingType : Option String
deriving DecidableEq

structure FloorAreaMeasurement where
  AreaUnformatted : Option String
  Area : Option String
deriving DecidableEq

structure BuildingInfo where
  FloorAreaMeasurements : Option (List FloorAreaMeasurement)
deriving DecidableEq

structure RawResult where
  MlsNumber : Option String
  PublicRemarks : Option String
  Property : Option PropertyInfo
  Building : Option BuildingInfo
deriving DecidableEq

/-! ## Normalization helpers (`analyzer.js` lines 38–172) -/

/-- `CONFIG_NAMES` from `analyzer.js`. -/
def CONFIG_NAMES : List String := ["OTPP", "Yonge&Bloor", "Bay&Wellesley"]

/-- `checkPetFriendly`: `unknown` when the text is falsy, otherwise `y`/`n`
according to whether `PET_FRIENDLY_REGEX` matches (`String.match` with a
global regex ignores and resets `lastIndex`, so this detector is pure). -/
def checkPetFriendly (text : Option String) : String :=
  if !strTruthy text then "unknown"
  else if hasAltMatch PET_FRIENDLY_REGEX (jsStrD text) then "y" else "n"

/-- `checkCarpetFree`, same shape as `checkPetFriendly`. -/
def checkCarpetFree (text : Option String) : String :=
  if !strTruthy text then "unknown"
  else if hasAltMatch CARPET_FREE_REGEX (jsStrD text) then "y" else "n"

/-- `isBasement(addressText, publicRemarks)`: tests
`BASEMENT_REGEX` against the concatenation of the two texts. -/
def isBasement (addressText publicRemarks : String) : Bool :=
  BASEMENT_REGEX_test (addressText ++ " " ++ publicRemarks)

/-- The `Parking.some(p => p.Name && GARAGE_REGEX.test(p.Name))` step of
`checkHasGarage`, threading the garage regex `lastIndex` state through the
sequential, short-circuiting `some`. -/
def parkingSome (st : Nat) : List ParkingEntry → Bool × Nat
  | [] => (false, st)
  | e :: rest =>
    if strTruthy e.Name then
      let t := GARAGE_REGEX_test st (jsStrD e.Name)
      if t.1 then (true, t.2) else parkingSome t.2 rest
    else parkingSome st rest

/-- `checkHasGarage(property)`: true if some parking-entry name or the
`ParkingType` string passes `GARAGE_REGEX.test`.  Because the regex is
`g`-flagged and used via `test`, the detector carries the regex
`lastIndex` state, threaded here explicitly. -/
def checkHasGarage (st : Nat) (property : Option PropertyInfo) : Bool × Nat :=
  match property with
  | none => (false, st)
  | some p =>
    let inParking :=
      match p.Parking with
      | some entries => parkingSome st entries
      | none => (false, st)
    if inParking.1 then (true, inParking.2)
    else if strTruthy p.ParkingType then GARAGE_REGEX_test inParking.2 (jsStrD p.ParkingType)
    else (false, inParking.2)

/-- `parseSqft`: strip every character that is not a digit or `-`; on a
range `low-high` return the arithmetic mean of the first two parts
(`Number('') = 0` for empty parts), otherwise the numeric value. -/
def parseSqft (sqftString : Option String) : ℚ :=
  if !strTruthy sqftString then 0
  else
    let cleaned := (jsStrD sqftString).toList.filter fun c => c.isDigit || c = '-'
    if cleaned.contains '-' then
      let parts := splitOnChar '-' cleaned
      let mn := natOfDigits (parts.headD [])
      let mx := natOfDigits ((parts.drop 1).headD [])
      ((mn : ℚ) + (mx : ℚ)) / 2
    else (natOfDigits cleaned : ℚ)

/-- The scan of `extractSqft` over `FloorAreaMeasurements`: first
measurement whose `AreaUnformatted || Area` is truthy and parses to a
positive number. -/
def extractSqftScan : List FloorAreaMeasurement → ℚ
  | [] => 0
  | m :: rest =>
    let s := if strTruthy m.AreaUnformatted then m.AreaUnformatted else m.Area
    if strTruthy s then
      let sqft := parseSqft s
      if sqft > 0 then sqft else extractSqftScan rest
    else extractSqftScan rest

/-- `extractSqft(building)`. -/
def extractSqft (building : Option BuildingInfo) : ℚ :=
  match building with
  | none => 0
  | some b =>
    match b.FloorAreaMeasurements with
    | some ms => extractSqftScan ms
    | none => 0

/-- `extractPrice`: strip non-digits and read the remaining decimal
digits. -/
def extractPrice (priceString : String) : ℕ :=
  if priceString.isEmpty then 0
  else natOfDigits (priceString.toList.filter Char.isDigit)

/-- `parseFloat` applied to the stored `pricePerSqft` value: the code only
reads it under the `sqft > 0` guard, where it is present; the `N/A` case
(absent) would be `NaN` and is unreachable there. -/
def parseFloatD (o : Option ℚ) : ℚ := o.getD 0

/-! ## The canonical listing and `processListing` -/

structure Listing where
  mlsNumber : String
  addressText : String
  rent : String
  sqft : ℚ
  rentValue : ℕ
  pricePerSqft : Option ℚ
  locationName : String
  petFriendly : String
  carpetFree : String
  hasGarage : String
  priorityScore : JsNum
  publicRemarks : String
  isBasement : Bool
deriving DecidableEq

/-- `processListing(result, configNumber)` from `analyzer.js` lines
177–272, with the garage regex `lastIndex` state threaded in and out.
Report-only fields that no claim mentions are omitted (see `RawResult`). -/
def processListing (result : RawResult) (configNumber : Option Nat) (st : Nat) :
    Listing × Nat :=
  let building := result.Building
  let property := result.Property
  let address := property.bind PropertyInfo.Address
  let mlsNumber := jsStrD result.MlsNumber
  let addressText := jsStrD (address.bind AddressInfo.AddressText)
  let rent :=
    if strTruthy (property.bind PropertyInfo.LeaseRent) then
      jsStrD (property.bind PropertyInfo.LeaseRent)
    else jsStrD (property.bind PropertyInfo.Price)
  let garage := checkHasGarage st property
  let hasGarage := garage.1
  let publicRemarks := jsStrD result.PublicRemarks
  let petFriendly := checkPetFriendly (some publicRemarks)
  let carpetFree := checkCarpetFree (some publicRemarks)
  let sqft := extractSqft building
  let rentValue := extractPrice rent
  let pricePerSqft : Option ℚ :=
    if sqft > 0 then some (toFixed2 ((rentValue : ℚ) / sqft)) else none
  let locationName :=
    match configNumber with
    | some n =>
      if 1 ≤ n ∧ n ≤ CONFIG_NAMES.length then CONFIG_NAMES.getD (n - 1) ""
      else "Unknown Location"
    | none => "Unknown Location"
  let score1 : ℚ := if petFriendly = "y" then 0 + 100 else 0
  let score2 : ℚ := if hasGarage then score1 + 100 else score1
  let score3 : ℚ := if carpetFree = "y" then score2 + 50 else score2
  let score4 : ℚ := if sqft ≥ 700 then score3 + 10 else score3
  let priorityScore : JsNum :=
    if sqft > 0 ∧ rentValue > 0 then
      jsNumAdd (.fin score4) (jsNumRound (jsNumDiv 10000 (parseFloatD pricePerSqft)))
    else .fin score4
  let basementFlag := isBasement addressText publicRemarks
  (⟨mlsNumber, addressText, rent, sqft, rentValue, pricePerSqft, locationName,
    petFriendly, carpetFree, if hasGarage then "y" else "n", priorityScore,
    publicRemarks, basementFlag⟩, garage.2)

/-! ## Ingestion across files: `processAllJsonFiles` (`analyzer.js` 277–329)

Directory listing, JSON parsing and the `config(\d+)` filename regex are
external I/O; a file that survived them is embedded as its extracted config
number together with its parsed `Results` array (absent when the JSON has
no `Results` list).  Files whose read or parse failed are skipped by the
`catch` and so simply do not appear in the input list. -/

structure JsonFile where
  configNumber : Option Nat
  Results : Option (List RawResult)

/-- The inner loop over one file's `Results`: dedup by `MlsNumber` against
the `seen` set, then normalize, threading the seen set and the garage regex
state. -/
def ingestResults (configNumber : Option Nat) (seen : List (Option String)) (st : Nat) :
    List RawResult → List Listing × List (Option String) × Nat
  | [] => ([], seen, st)
  | r :: rest =>
    if r.MlsNumber ∈ seen then ingestResults configNumber seen st rest
    else
      let p := processListing r configNumber st
      let t := ingestResults configNumber (r.MlsNumber :: seen) p.2 rest
      (p.1 :: t.1, t.2.1, t.2.2)

/-- The outer loop of `processAllJsonFiles` over the JSON files. -/
def processFiles (seen : List (Option String)) (st : Nat) :
    List JsonFile → List Listing × List (Option String) × Nat
  | [] => ([], seen, st)
  | f :: rest =>
    let t :=
      match f.Results with
      | some rs => ingestResults f.configNumber seen st rs
      | none => ([], seen, st)
    let u := processFiles t.2.1 t.2.2 rest
    (t.1 ++ u.1, u.2.1, u.2.2)

/-- `processAllJsonFiles`: all unique listings, in file-read order and
within-page order, starting from an empty seen set. -/
def processAllJsonFiles (files : List JsonFile) (st : Nat) : List Listing :=
  (processFiles [] st files).1

/-- All raw records of a run in ingestion order, each paired with its
file's config number. -/
def flattenFiles : List JsonFile → List (Option Nat × RawResult)
  | [] => []
  | f :: rest => ((f.Results.getD []).map fun r => (f.configNumber, r)) ++ flattenFiles rest

/-- First-occurrence deduplication of a record sequence by `MlsNumber`,
relative to an already-seen key set. -/
def dedupRecords (seen : List (Option String)) :
    List (Option Nat × RawResult) → List (Option Nat × RawResult)
  | [] => []
  | p :: rest =>
    if p.2.MlsNumber ∈ seen then dedupRecords seen rest
    else p :: dedupRecords (p.2.MlsNumber :: seen) rest

/-- Normalization of a record sequence in order, threading the garage regex
state. -/
def mapListingsFrom (st : Nat) : List (Option Nat × RawResult) → List Listing
  | [] => []
  | p :: rest =>
    let q := processListing p.2 p.1 st
    q.1 :: mapListingsFrom q.2 rest

/-- The seen set after registering the keys of a record sequence. -/
def seenAfter (seen : List (Option String)) :
    List (Option Nat × RawResult) → List (Option String)
  | [] => seen
  | p :: rest => seenAfter (p.2.MlsNumber :: seen) rest

/-- The garage regex state after normalizing a record sequence. -/
def stateAfter (st : Nat) : List (Option Nat × RawResult) → Nat
  | [] => st
  | p :: rest => stateAfter (processListing p.2 p.1 st).2 rest

/-! ## Filtering and sorting (`analyzer.js` 334–350) -/

/-- `filterAndSortListings`: keep listings with `sqft >= 700` that are not
basement-flagged, then sort by priority score descending.  JavaScript's
`Array.prototype.sort` is stable; it is modelled by the stable
`List.mergeSort` with the comparator order of
`(a, b) => b.priorityScore - a.priorityScore`. -/
def filterAndSortListings (listings : List Listing) : List Listing :=
  (listings.filter fun l => decide (l.sqft ≥ 700) && !l.isBasement).mergeSort
    fun a b => jsNumLe b.priorityScore a.priorityScore

/-! ## Search orchestrator (`auto-search.js`)

The remote call `searcher.search()` is external; a run of one unit of work
is parameterized by a fetch oracle mapping the requested page number to the
outcome the remote call would produce for it (the orchestrator sets
`CurrentPage` before each call, so the page number determines the call).
The record type is a type parameter `α` since the orchestrator never looks
inside records.  Randomized delays, logging and file output are dropped:
they do not influence any value the claims mention. -/

/-- A thrown fetch error: its `message` and, when present, the HTTP status
of `error.response`. -/
structure PageError where
  message : String
  status : Option Nat
deriving DecidableEq

structure PagingInfo where
  TotalRecords : Option Nat
  RecordsPerPage : Option Nat
deriving DecidableEq

structure SearchResponse (α : Type) where
  Paging : Option PagingInfo
  Results : Option (List α)

inductive FetchOutcome (α : Type) where
  | ok : SearchResponse α → FetchOutcome α
  | err : PageError → FetchOutcome α

/-- The configuration switches of `AUTO_SEARCH_CONFIG` that the paging
logic reads. -/
structure AutoSearchConfig where
  fetchMultiplePages : Bool
  fetchAllPages : Bool
  maxPages : Nat
deriving DecidableEq

/-- `results.Results?.length || 0` and the page-merge read of `Results`:
an absent array reads as empty. -/
def jsResults {α : Type} (resp : SearchResponse α) : List α := resp.Results.getD []

/-- `results.Paging?.TotalRecords || 0`. -/
def totalRecordsOf {α : Type} (resp : SearchResponse α) : Nat :=
  jsOrNat (resp.Paging.bind PagingInfo.TotalRecords) 0

/-- `results.Paging?.RecordsPerPage || 12`. -/
def recordsPerPageOf {α : Type} (resp : SearchResponse α) : Nat :=
  jsOrNat (resp.Paging.bind PagingInfo.RecordsPerPage) 12

/-- `Math.ceil(totalRecords / recordsPerPage)` (the divisor is never `0`
because of the `|| 12` default). -/
def totalPagesOf {α : Type} (resp : SearchResponse α) : Nat :=
  (totalRecordsOf resp + recordsPerPageOf resp - 1) / recordsPerPageOf resp

/-- The page bound actually looped to: all pages when `fetchAllPages` or
`maxPages === 0`, else `Math.min(maxPages, totalPages)`. -/
def pagesToFetchOf {α : Type} (cfg : AutoSearchConfig) (resp : SearchResponse α) : Nat :=
  if cfg.fetchAllPages || decide (cfg.maxPages = 0) then totalPagesOf resp
  else min cfg.maxPages (totalPagesOf resp)

/-- Error classification of the per-page `catch`: a message containing
`redirect`, or an HTTP 429 response status, stops paging for the unit. -/
def isStopError (e : PageError) : Bool :=
  (findSubstrFrom "redirect".toList e.message.toList 0).isSome || e.status == some 429

/-- The `for (let page = 2; page <= pagesToFetch; page++)` loop of
`executeSearch`.  `acc` is the `results.Results` array being appended to
(`none` models a first page without a `Results` field: the `push` then
throws a `TypeError` which the per-page `catch` treats as a skippable
error).  `log` records each page number fetched; `fuel` is the number of
loop iterations remaining. -/
def pagingLoop {α : Type} (fetch : Nat → FetchOutcome α) :
    Nat → Nat → Option (List α) → List Nat → Option (List α) × List Nat
  | _, 0, acc, log => (acc, log)
  | page, fuel + 1, acc, log =>
    match fetch page with
    | .ok resp =>
      if (jsResults resp).isEmpty then (acc, log ++ [page])
      else
        match acc with
        | some l => pagingLoop fetch (page + 1) fuel (some (l ++ jsResults resp)) (log ++ [page])
        | none => pagingLoop fetch (page + 1) fuel none (log ++ [page])
    | .err e =>
      if isStopError e then (acc, log ++ [page])
      else pagingLoop fetch (page + 1) fuel acc (log ++ [page])

/-- Result of `executeSearch` on one unit of work: the outcome (the
returned object's `Results`, or the rethrown first-page error) together
with the ordered list of page numbers that were fetched. -/
structure ExecResult (α : Type) where
  outcome : Except PageError (Option (List α))
  fetched : List Nat

/-- `AutoSearchManager.executeSearch` (`auto-search.js` lines 75–165): fetch
page 1; on error rethrow; otherwise, when multi-page mode is on and the
reported total exceeds the first page's record count, page on from page 2. -/
def executeSearch {α : Type} (cfg : AutoSearchConfig) (fetch : Nat → FetchOutcome α) :
    ExecResult α :=
  match fetch 1 with
  | .err e => ⟨.error e, [1]⟩
  | .ok resp =>
    if (cfg.fetchMultiplePages || cfg.fetchAllPages)
        && decide ((jsResults resp).length < totalRecordsOf resp) then
      let r := pagingLoop fetch 2 (pagesToFetchOf cfg resp - 1) resp.Results [1]
      ⟨.ok r.1, r.2⟩
    else ⟨.ok resp.Results, [1]⟩

/-- One entry of the `allResults` array of `executeByNumber`: a successful
unit's returned records, or the pushed
`{success: false, configIndex, error}` descriptor. -/
inductive UnitResult (α : Type) where
  | ok : Option (List α) → UnitResult α
  | failed : Nat → String → UnitResult α

/-- The per-configuration loop of `executeByNumber` (`auto-search.js` lines
185–226), starting at zero-based index `i`; each configuration's remote
interaction is its fetch oracle.  A unit whose `executeSearch` throws is
recorded in both `allResults` (a failure descriptor carrying the 1-based
index) and `failedConfigs`, and the loop continues with the next unit. -/
def runConfigsFrom {α : Type} (cfg : AutoSearchConfig) :
    Nat → List (Nat → FetchOutcome α) → List (UnitResult α) × List (Nat × String)
  | _, [] => ([], [])
  | i, f :: rest =>
    let r := executeSearch cfg f
    let t := runConfigsFrom cfg (i + 1) rest
    match r.outcome with
    | .ok recs => (UnitResult.ok recs :: t.1, t.2)
    | .error e => (UnitResult.failed (i + 1) e.message :: t.1, (i + 1, e.message) :: t.2)

/-- `AutoSearchManager.executeByNumber`, restricted to its core loop: the
curl-file existence check, curl parsing and file output are external.  The
summary it prints reports `allConfigs.length` total units,
`allConfigs.length - failedConfigs.length` successes and
`failedConfigs.length` failures. -/
def executeByNumber {α : Type} (cfg : AutoSearchConfig)
    (fetches : List (Nat → FetchOutcome α)) : List (UnitResult α) × List (Nat × String) :=
  runConfigsFrom cfg 0 fetches

/-! ## Bounding box (`calculateBoundingBox`, unnamed config module)

The source computes with JavaScript floating point; the embedding uses the
real numbers, i.e. the exact real-arithmetic reading of the same formulas. -/

structure BoundingBox where
  minLatitude : ℝ
  maxLatitude : ℝ
  minLongitude : ℝ
  maxLongitude : ℝ

open Classical in
/-- `calculateBoundingBox(centerLat, centerLon, radiusInMeters)`. -/
noncomputable def calculateBoundingBox (centerLat centerLon radiusInMeters : ℝ) :
    BoundingBox :=
  let EARTH_RADIUS_M : ℝ := 6371000
  let angularRadius := radiusInMeters / EARTH_RADIUS_M
  let deltaLat := angularRadius * (180 / Real.pi)
  let minLat := centerLat - deltaLat
  let maxLat := centerLat + deltaLat
  let latInRadians := centerLat * (Real.pi / 180)
  let cosLat := Real.cos latInRadians
  if cosLat = 0 then
    ⟨minLat, maxLat, -180, 180⟩
  else
    let deltaLon := deltaLat / cosLat
    let minLon0 := centerLon - deltaLon
    let maxLon0 := centerLon + deltaLon
    let minLon := if minLon0 < -180 then minLon0 + 360 else minLon0
    let maxLon := if maxLon0 > 180 then maxLon0 - 360 else maxLon0
    ⟨minLat, maxLat, minLon, maxLon⟩

/-! ## Concrete fixtures used by individual claims -/

/-- A raw record realizing the spec's scoring example: pet-friendly and
carpet-free remarks, a garage parking entry, 700 sqft, rent 2000. -/
def scoringExampleRecord : RawResult :=
  { MlsNumber := some "X1"
    PublicRemarks := some "pet ok, hardwood"
    Property := some
      { Address := some { AddressText := some "1 Main St" }
        LeaseRent := some "$2,000/Monthly"
        Price := none
        Parking := some [{ Name := some "Garage" }]
        ParkingType := none }
    Building := some
      { FloorAreaMeasurements := some [{ AreaUnformatted := some "700 sqft", Area := none }] } }

/-! ## Claim C1 -/

/-- A closed form for the priority score computed inside `processListing`,
in terms of the produced listing's own fields. -/
theorem priorityScore_formula (result : RawResult) (configNumber : Option Nat) (st : Nat) :
    (processListing result configNumber st).1.priorityScore =
      jsNumAdd
        (JsNum.fin
          ((if (processListing result configNumber st).1.petFriendly = "y" then (100 : ℚ) else 0)
           + (if (processListing result configNumber st).1.hasGarage = "y" then (100 : ℚ) else 0)
           + (if (processListing result configNumber st).1.carpetFree = "y" then (50 : ℚ) else 0)
           + (if (processListing result configNumber st).1.sqft ≥ 700 then (10 : ℚ) else 0)))
        (if (processListing result configNumber st).1.sqft > 0
            ∧ (processListing result configNumber st).1.rentValue > 0 then
          jsNumRound (jsNumDiv 10000
            (toFixed2 (((processListing result configNumber st).1.rentValue : ℚ)
              / (processListing result configNumber st).1.sqft)))
        else JsNum.fin 0) := by
  simp only [processListing]
  by_cases hg : (checkHasGarage st result.Property).1 = true <;>
    by_cases hpf : checkPetFriendly (some (jsStrD result.PublicRemarks)) = "y" <;>
    by_cases hcf : checkCarpetFree (some (jsStrD result.PublicRemarks)) = "y" <;>
    by_cases ha : extractSqft result.Building ≥ 700 <;>
    by_cases hq : extractSqft result.Building > 0
      ∧ extractPrice (if strTruthy (result.Property.bind PropertyInfo.LeaseRent) then
          jsStrD (result.Property.bind PropertyInfo.LeaseRent)
        else jsStrD (result.Property.bind PropertyInfo.Price)) > 0 <;>
    simp [hg, hpf, hcf, ha, hq, parseFloatD, jsNumAdd]

/-- C1: for every listing produced by `processListing`, the priority score
is the sum of 100 for a pet-friendly flag of yes, 100 for a garage flag,
50 for a carpet-free flag of yes, 10 for interior area at least 700, plus,
exactly when both area and price are positive, the rounded value of
10000 divided by the price-per-area that was itself rounded to two decimal
places first; and the spec's example (pet yes, garage, carpet-free,
area 700, price 2000) scores exactly 3757. -/
theorem claim_C1_priority_score :
    (∀ (result : RawResult) (configNumber : Option Nat) (st : Nat),
      (processListing result configNumber st).1.priorityScore =
        jsNumAdd
          (JsNum.fin
            ((if (processListing result configNumber st).1.petFriendly = "y" then (100 : ℚ) else 0)
             + (if (processListing result configNumber st).1.hasGarage = "y" then (100 : ℚ) else 0)
             + (if (processListing result configNumber st).1.carpetFree = "y" then (50 : ℚ) else 0)
             + (if (processListing result configNumber st).1.sqft ≥ 700 then (10 : ℚ) else 0)))
          (if (processListing result configNumber st).1.sqft > 0
              ∧ (processListing result configNumber st).1.rentValue > 0 then
            jsNumRound (jsNumDiv 10000
              (toFixed2 (((processListing result configNumber st).1.rentValue : ℚ)
                / (processListing result configNumber st).1.sqft)))
          else JsNum.fin 0))
    ∧ (processListing scoringExampleRecord (some 1) 0).1.priorityScore = JsNum.fin 3757 := by
  refine ⟨priorityScore_formula, ?_⟩
  have hpf : (processListing scoringExampleRecord (some 1) 0).1.petFriendly = "y" := by decide
  have hcf : (processListing scoringExampleRecord (some 1) 0).1.carpetFree = "y" := by decide
  have hhg : (processListing scoringExampleRecord (some 1) 0).1.hasGarage = "y" := by decide
  have hsq : (processListing scoringExampleRecord (some 1) 0).1.sqft = 700 := by decide
  have hrv : (processListing scoringExampleRecord (some 1) 0).1.rentValue = 2000 := by decide
  rw [priorityScore_formula, hpf, hcf, hhg, hsq, hrv]
  norm_num [toFixed2, jsRound, jsNumDiv, jsNumRound, jsNumAdd]

/-! ## Claim C10 -/

/-- A raw record with price 1 and area 1000: price per area `0.001` rounds
to `0.00` at two decimals. -/
def zeroDivisorRecord : RawResult :=
  { MlsNumber := some "X2"
    PublicRemarks := none
    Property := some
      { Address := none
        LeaseRent := some "1"
        Price := none
        Parking := none
        ParkingType := none }
    Building := some
      { FloorAreaMeasurements := some [{ AreaUnformatted := some "1000 sqft", Area := none }] } }

/-- C10: there is a listing with positive price and positive area (price 1,
area 1000) whose price-per-area rounds to exactly 0 at two decimal places,
so the value term divides 10000 by zero and the priority score is the
non-finite `Infinity` value; the `area > 0 and price > 0` guard does not
keep the rounded divisor nonzero. -/
theorem claim_C10_rounded_divisor_zero :
    (processListing zeroDivisorRecord none 0).1.rentValue = 1
    ∧ (processListing zeroDivisorRecord none 0).1.sqft = 1000
    ∧ toFixed2 (((processListing zeroDivisorRecord none 0).1.rentValue : ℚ)
        / (processListing zeroDivisorRecord none 0).1.sqft) = 0
    ∧ (processListing zeroDivisorRecord none 0).1.priorityScore = JsNum.inf := by
  have hrv : (processListing zeroDivisorRecord none 0).1.rentValue = 1 := by decide
  have hsq : (processListing zeroDivisorRecord none 0).1.sqft = 1000 := by decide
  have hpf : (processListing zeroDivisorRecord none 0).1.petFriendly = "unknown" := by decide
  have hcf : (processListing zeroDivisorRecord none 0).1.carpetFree = "unknown" := by decide
  have hhg : (processListing zeroDivisorRecord none 0).1.hasGarage = "n" := by decide
  have hfix : toFixed2 (((processListing zeroDivisorRecord none 0).1.rentValue : ℚ)
      / (processListing zeroDivisorRecord none 0).1.sqft) = 0 := by
    rw [hrv, hsq]
    norm_num [toFixed2, jsRound]
  refine ⟨hrv, hsq, hfix, ?_⟩
  rw [priorityScore_formula, hpf, hcf, hhg, hsq, hrv]
  norm_num [toFixed2, jsRound, jsNumDiv, jsNumRound, jsNumAdd]

/-! ## Claim C7 -/

/-- A property whose `ParkingType` is the string `Garage`. -/
def garageTypeProperty : PropertyInfo :=
  { Address := none, LeaseRent := none, Price := none, Parking := none,
    ParkingType := some "Garage" }

/-- C7: garage detection is not a pure function of its input.  On a
property whose `ParkingType` is `Garage` the detector answers `true` from a
fresh regex state, but answers `false` for the very same property when
called again with the `lastIndex` state the first call left behind, because
`GARAGE_REGEX` carries the `g` flag and is queried through `test`. -/
theorem claim_C7_garage_detection_stateful :
    checkHasGarage 0 (some garageTypeProperty) = (true, 6)
    ∧ (checkHasGarage (checkHasGarage 0 (some garageTypeProperty)).2
        (some garageTypeProperty)).1 = false := by
  decide

/-! ## Claim C8 -/

/-- C8 counterexample: a present-but-empty description yields the flag
value `unknown`, not the no-match value `n`, for both detectors (the empty
string is falsy in JavaScript, so it takes the absent-description branch). -/
theorem claim_C8_counterexample :
    checkPetFriendly (some "") = "unknown"
    ∧ checkCarpetFree (some "") = "unknown"
    ∧ ("unknown" : String) ≠ "n" := by
  decide

/-- C8 as amended: an absent or empty description gives `unknown`; a
nonempty description gives `y` exactly when its keyword family matches
case-insensitively and `n` otherwise. -/
theorem claim_C8_amended (t : Option String) :
    (t = none ∨ t = some "" →
      checkPetFriendly t = "unknown" ∧ checkCarpetFree t = "unknown")
    ∧ (∀ s : String, t = some s → s ≠ "" →
        checkPetFriendly t = (if hasAltMatch PET_FRIENDLY_REGEX s then "y" else "n")
        ∧ checkCarpetFree t = (if hasAltMatch CARPET_FREE_REGEX s then "y" else "n")) := by
  constructor
  · rintro (rfl | rfl) <;> constructor <;> rfl
  · rintro s rfl hs
    have hne : s.isEmpty = false := by
      cases hse : s.isEmpty
      · rfl
      · exact absurd ((String.isEmpty_iff s).mp hse) hs
    constructor <;> simp [checkPetFriendly, checkCarpetFree, strTruthy, jsStrD, hne]

/-- C8 witness: the amended statement applied at an absent description, an
empty description, a matching description and a non-matching one. -/
theorem claim_C8_amended_witness :
    checkPetFriendly none = "unknown"
    ∧ checkPetFriendly (some "") = "unknown"
    ∧ checkPetFriendly (some "pets welcome") = "y"
    ∧ checkCarpetFree (some "spacious condo") = "n" := by
  refine ⟨((claim_C8_amended none).1 (Or.inl rfl)).1,
    ((claim_C8_amended (some "")).1 (Or.inr rfl)).1, ?_, ?_⟩
  · have h := ((claim_C8_amended (some "pets welcome")).2 "pets welcome" rfl (by decide)).1
    rw [h]
    decide
  · have h := ((claim_C8_amended (some "spacious condo")).2 "spacious condo" rfl (by decide)).2
    rw [h]
    decide

/-! ## Claim C6 -/

/-- A listing with interior area 650 and no basement flag. -/
def listingArea650 : Listing :=
  { mlsNumber := "A", addressText := "", rent := "", sqft := 650, rentValue := 0,
    pricePerSqft := none, locationName := "", petFriendly := "unknown",
    carpetFree := "unknown", hasGarage := "n", priorityScore := .fin 0,
    publicRemarks := "", isBasement := false }

/-- A listing with interior area 700 and the basement flag set. -/
def listingArea700Basement : Listing :=
  { listingArea650 with mlsNumber := "B", sqft := 700, isBasement := true }

/-- A listing with interior area 700 and no basement flag. -/
def listingArea700 : Listing :=
  { listingArea650 with mlsNumber := "C", sqft := 700 }

/-- C6: the filter keeps a listing exactly when its interior area is at
least 700 and its basement flag is false; in particular area 650 without
basement is excluded, area 700 with basement is excluded, and area 700
without basement is included. -/
theorem claim_C6_filter_predicate :
    (∀ (l : Listing) (ls : List Listing),
      l ∈ filterAndSortListings ls ↔ l ∈ ls ∧ l.sqft ≥ 700 ∧ l.isBasement = false)
    ∧ filterAndSortListings [listingArea650, listingArea700Basement, listingArea700]
        = [listingArea700] := by
  constructor
  · intro l ls
    rw [filterAndSortListings, (List.mergeSort_perm _ _).mem_iff, List.mem_filter]
    simp [and_assoc, Bool.not_eq_true']
  · have hf : [listingArea650, listingArea700Basement, listingArea700].filter
        (fun l => decide (l.sqft ≥ 700) && !l.isBasement) = [listingArea700] := by
      decide
    rw [filterAndSortListings, hf, List.mergeSort_singleton]

/-! ## Claim C5 -/

/-- Normalizing an appended sequence splits at the appending point, with
the garage regex state carried across. -/
theorem mapListingsFrom_append (st : Nat) (A B : List (Option Nat × RawResult)) :
    mapListingsFrom st (A ++ B) = mapListingsFrom st A ++ mapListingsFrom (stateAfter st A) B := by
  induction A generalizing st with
  | nil => rfl
  | cons p rest ih => simp [mapListingsFrom, stateAfter, ih]

/-- Deduplicating an appended sequence splits at the appending point, with
the seen set grown by the kept records of the first part. -/
theorem dedupRecords_append (A B : List (Option Nat × RawResult)) (seen : List (Option String)) :
    dedupRecords seen (A ++ B) =
      dedupRecords seen A ++ dedupRecords (seenAfter seen (dedupRecords seen A)) B := by
  induction A generalizing seen with
  | nil => rfl
  | cons p rest ih =>
    by_cases hp : p.2.MlsNumber ∈ seen
    · simp [dedupRecords, hp, ih]
    · simp [dedupRecords, hp, ih, seenAfter]

/-- The inner per-file loop agrees with deduplicate-then-normalize. -/
theorem ingestResults_spec (rs : List RawResult) (cfg : Option Nat)
    (seen : List (Option String)) (st : Nat) :
    ingestResults cfg seen st rs =
      (mapListingsFrom st (dedupRecords seen (rs.map fun r => (cfg, r))),
       seenAfter seen (dedupRecords seen (rs.map fun r => (cfg, r))),
       stateAfter st (dedupRecords seen (rs.map fun r => (cfg, r)))) := by
  induction rs generalizing seen st with
  | nil => rfl
  | cons r rest ih =>
    by_cases hr : r.MlsNumber ∈ seen
    · simp [ingestResults, hr, dedupRecords, ih]
    · simp [ingestResults, hr, dedupRecords, ih, mapListingsFrom, seenAfter, stateAfter]

/-- Registering the keys of an appended sequence composes. -/
theorem seenAfter_append (seen : List (Option String)) (A B : List (Option Nat × RawResult)) :
    seenAfter seen (A ++ B) = seenAfter (seenAfter seen A) B := by
  induction A generalizing seen with
  | nil => rfl
  | cons p rest ih => simp [seenAfter, ih]

/-- Threading the garage regex state through an appended sequence
composes. -/
theorem stateAfter_append (st : Nat) (A B : List (Option Nat × RawResult)) :
    stateAfter st (A ++ B) = stateAfter (stateAfter st A) B := by
  induction A generalizing st with
  | nil => rfl
  | cons p rest ih => simp [stateAfter, ih]

/-- The outer loop over files agrees with deduplicate-then-normalize on the
flattened record sequence. -/
theorem processFiles_spec (files : List JsonFile) (seen : List (Option String)) (st : Nat) :
    processFiles seen st files =
      (mapListingsFrom st (dedupRecords seen (flattenFiles files)),
       seenAfter seen (dedupRecords seen (flattenFiles files)),
       stateAfter st (dedupRecords seen (flattenFiles files))) := by
  induction files generalizing seen st with
  | nil => rfl
  | cons f rest ih =>
    cases hres : f.Results with
    | none =>
      simp only [processFiles, hres, flattenFiles, ih]
      rfl
    | some rs =>
      have hsplit := dedupRecords_append (rs.map fun r => (f.configNumber, r))
        (flattenFiles rest) seen
      simp only [processFiles, hres, ingestResults_spec, ih, flattenFiles, Option.getD_some]
      rw [hsplit, mapListingsFrom_append, seenAfter_append, stateAfter_append]

/-- Keys already seen never reappear after deduplication. -/
theorem dedupRecords_filter_mem (L : List (Option Nat × RawResult))
    (seen : List (Option String)) (key : Option String) (hk : key ∈ seen) :
    (dedupRecords seen L).filter (fun p => decide (p.2.MlsNumber = key)) = [] := by
  induction L generalizing seen with
  | nil => rfl
  | cons p rest ih =>
    by_cases hp : p.2.MlsNumber ∈ seen
    · simp only [dedupRecords, if_pos hp]
      exact ih seen hk
    · have hne : p.2.MlsNumber ≠ key := fun h => hp (h ▸ hk)
      simp only [dedupRecords, if_neg hp, List.filter_cons, decide_eq_true_eq]
      rw [if_neg (by simpa using hne)]
      exact ih _ (List.mem_cons_of_mem _ hk)

/-- For an unseen key, deduplication keeps exactly the first record bearing
that key. -/
theorem dedupRecords_filter_not_mem (L : List (Option Nat × RawResult))
    (seen : List (Option String)) (key : Option String) (hk : key ∉ seen) :
    (dedupRecords seen L).filter (fun p => decide (p.2.MlsNumber = key)) =
      (L.filter fun p => decide (p.2.MlsNumber = key)).take 1 := by
  induction L generalizing seen with
  | nil => rfl
  | cons p rest ih =>
    by_cases hp : p.2.MlsNumber ∈ seen
    · have hne : p.2.MlsNumber ≠ key := fun h => hk (h ▸ hp)
      simp only [dedupRecords, if_pos hp, List.filter_cons, decide_eq_true_eq]
      rw [if_neg (by simpa using hne)]
      exact ih seen hk
    · by_cases hkey : p.2.MlsNumber = key
      · simp only [dedupRecords, if_neg hp, List.filter_cons, decide_eq_true_eq]
        rw [if_pos (by simpa using hkey), if_pos (by simpa using hkey)]
        simp only [List.take_succ_cons, List.take_zero]
        rw [dedupRecords_filter_mem rest _ key (hkey ▸ List.mem_cons_self _ _)]
      · simp only [dedupRecords, if_neg hp, List.filter_cons, decide_eq_true_eq]
        rw [if_neg (by simpa using hkey), if_neg (by simpa using hkey)]
        exact ih _ (by simp [hkey, hk]; exact fun h => absurd h.symm hkey)

/-- C5: the ingestion pipeline equals first-occurrence deduplication by
identifier followed by in-order normalization: for every identifier the
deduplicated sequence retains exactly the first record bearing it (and none
when it never occurs), so exactly one listing — the one built from the
first-encountered record — is produced per identifier, and later duplicates
are dropped without any error. -/
theorem claim_C5_dedup_first_wins (files : List JsonFile) (st : Nat) :
    processAllJsonFiles files st = mapListingsFrom st (dedupRecords [] (flattenFiles files))
    ∧ ∀ key : Option String,
        (dedupRecords [] (flattenFiles files)).filter (fun p => decide (p.2.MlsNumber = key)) =
          ((flattenFiles files).filter fun p => decide (p.2.MlsNumber = key)).take 1 := by
  constructor
  · rw [processAllJsonFiles, processFiles_spec]
  · intro key
    exact dedupRecords_filter_not_mem _ [] key (List.not_mem_nil key)

/-! ## Claim C2 -/

/-- The paging loop requests consecutive page numbers — at most `fuel` of
them, starting at `page` — appended to the log. -/
theorem pagingLoop_trace {α : Type} (fetch : Nat → FetchOutcome α) :
    ∀ (fuel page : Nat) (acc : Option (List α)) (log : List Nat),
      ∃ k, k ≤ fuel ∧ (pagingLoop fetch page fuel acc log).2 = log ++ List.range' page k := by
  intro fuel
  induction fuel with
  | zero =>
    intro page acc log
    exact ⟨0, Nat.le_refl 0, by simp [pagingLoop]⟩
  | succ n ih =>
    intro page acc log
    have hcons : ∀ k, (log ++ [page]) ++ List.range' (page + 1) k = log ++ List.range' page (k + 1) := by
      intro k
      simp [List.append_assoc]
      rfl
    cases hf : fetch page with
    | ok resp =>
      cases hemp : (jsResults resp).isEmpty with
      | true =>
        refine ⟨1, by omega, ?_⟩
        simp [pagingLoop, hf, hemp]
      | false =>
        cases hacc : acc with
        | some l =>
          obtain ⟨k, hk, htr⟩ := ih (page + 1) (some (l ++ jsResults resp)) (log ++ [page])
          refine ⟨k + 1, by omega, ?_⟩
          rw [← hcons k, ← htr]
          simp [pagingLoop, hf, hemp]
        | none =>
          obtain ⟨k, hk, htr⟩ := ih (page + 1) none (log ++ [page])
          refine ⟨k + 1, by omega, ?_⟩
          rw [← hcons k, ← htr]
          simp [pagingLoop, hf, hemp]
    | err e =>
      cases hstop : isStopError e with
      | true =>
        refine ⟨1, by omega, ?_⟩
        simp [pagingLoop, hf, hstop]
      | false =>
        obtain ⟨k, hk, htr⟩ := ih (page + 1) acc (log ++ [page])
        refine ⟨k + 1, by omega, ?_⟩
        rw [← hcons k, ← htr]
        simp [pagingLoop, hf, hstop]

/-- C2: with multi-page mode enabled and reported total records exceeding
the first page's record count, the orchestrator pages on sequentially from
page 2, bounded by the total-page count computed as the rounded-up quotient
of total records by reported page size; a page that comes back with zero
records ends paging immediately with the collected records and no failure;
and in the concrete 40-records/20-per-page scenario exactly one
continuation fetch (page 2) occurs, with no page 3 fetch when page 2 is
empty and the unit still succeeding with page 1's records. -/
theorem claim_C2_multi_page_sequencing :
    (∀ (α : Type) (fetch : Nat → FetchOutcome α) (cfg : AutoSearchConfig)
        (resp : SearchResponse α),
      cfg.fetchMultiplePages = true ∨ cfg.fetchAllPages = true →
      fetch 1 = .ok resp →
      (jsResults resp).length < totalRecordsOf resp →
      pagesToFetchOf cfg resp ≤ totalPagesOf resp ∧
      ∃ k, k ≤ pagesToFetchOf cfg resp - 1 ∧
        (executeSearch cfg fetch).fetched = 1 :: List.range' 2 k ∧
        ∃ recs, (executeSearch cfg fetch).outcome = .ok recs)
    ∧ (∀ (α : Type) (fetch : Nat → FetchOutcome α) (page fuel : Nat)
          (acc : Option (List α)) (log : List Nat) (resp : SearchResponse α),
        fetch page = .ok resp → jsResults resp = [] →
        pagingLoop fetch page (fuel + 1) acc log = (acc, log ++ [page]))
    ∧ (∀ (α : Type) (fetch : Nat → FetchOutcome α) (cfg : AutoSearchConfig)
          (r1 : List α) (resp2 : SearchResponse α),
        cfg.fetchMultiplePages = true ∨ cfg.fetchAllPages = true →
        cfg.fetchAllPages = true ∨ cfg.maxPages = 0 →
        fetch 1 = .ok ⟨some ⟨some 40, some 20⟩, some r1⟩ →
        r1.length = 20 →
        fetch 2 = .ok resp2 → jsResults resp2 = [] →
        executeSearch cfg fetch = ⟨.ok (some r1), [1, 2]⟩) := by
  refine ⟨?_, ?_, ?_⟩
  · intro α fetch cfg resp hon h1 hlt
    have hle : pagesToFetchOf cfg resp ≤ totalPagesOf resp := by
      rw [pagesToFetchOf]
      split
      · exact Nat.le_refl _
      · exact Nat.min_le_right _ _
    have hguard : ((cfg.fetchMultiplePages || cfg.fetchAllPages)
        && decide ((jsResults resp).length < totalRecordsOf resp)) = true := by
      rcases hon with h | h <;> simp [h, hlt]
    have hexec : executeSearch cfg fetch =
        ⟨.ok (pagingLoop fetch 2 (pagesToFetchOf cfg resp - 1) resp.Results [1]).1,
         (pagingLoop fetch 2 (pagesToFetchOf cfg resp - 1) resp.Results [1]).2⟩ := by
      simp only [executeSearch, h1]
      rw [if_pos hguard]
    obtain ⟨k, hk, htr⟩ :=
      pagingLoop_trace fetch (pagesToFetchOf cfg resp - 1) 2 resp.Results [1]
    refine ⟨hle, k, hk, ?_, ?_⟩
    · rw [hexec]
      exact htr
    · rw [hexec]
      exact ⟨_, rfl⟩
  · intro α fetch page fuel acc log resp hf hemp
    simp [pagingLoop, hf, hemp]
  · intro α fetch cfg r1 resp2 hon huncap h1 hlen h2 hemp2
    have htr : totalRecordsOf (⟨some ⟨some 40, some 20⟩, some r1⟩ : SearchResponse α) = 40 := by
      rfl
    have hrpp : recordsPerPageOf (⟨some ⟨some 40, some 20⟩, some r1⟩ : SearchResponse α) = 20 := by
      rfl
    have htp : totalPagesOf (⟨some ⟨some 40, some 20⟩, some r1⟩ : SearchResponse α) = 2 := by
      rw [totalPagesOf, htr, hrpp]
    have hpp : pagesToFetchOf cfg (⟨some ⟨some 40, some 20⟩, some r1⟩ : SearchResponse α) = 2 := by
      rw [pagesToFetchOf]
      rcases huncap with h | h <;> simp [h, htp]
    have hguard : ((cfg.fetchMultiplePages || cfg.fetchAllPages)
        && decide ((jsResults (⟨some ⟨some 40, some 20⟩, some r1⟩ : SearchResponse α)).length
          < totalRecordsOf (⟨some ⟨some 40, some 20⟩, some r1⟩ : SearchResponse α))) = true := by
      rcases hon with h | h <;> simp [h, htr, jsResults, hlen]
    simp only [executeSearch, h1]
    rw [if_pos hguard]
    simp only [hpp]
    simp [pagingLoop, h2, jsResults, show resp2.Results.getD [] = [] from hemp2]

/-- Fetch oracle for the C2 witness: page 1 reports 40 total records at 20
per page and carries 20 records; every later page is empty. -/
def witnessFetchC2 : Nat → FetchOutcome Nat := fun n =>
  if n = 1 then .ok ⟨some ⟨some 40, some 20⟩, some (List.range 20)⟩
  else .ok ⟨none, some []⟩

/-- C2 witness: the concrete 40-records/20-per-page scenario instantiated
at an explicit oracle — one continuation fetch, no page 3, unit succeeds
with page 1's records. -/
theorem claim_C2_witness :
    executeSearch ⟨false, true, 0⟩ witnessFetchC2 = ⟨.ok (some (List.range 20)), [1, 2]⟩ :=
  claim_C2_multi_page_sequencing.2.2 Nat witnessFetchC2 ⟨false, true, 0⟩ (List.range 20)
    ⟨none, some []⟩ (Or.inr rfl) (Or.inl rfl) rfl (by simp) rfl rfl

/-! ## Claim C3 -/

/-- C3: a per-page fetch error whose message signals a redirect loop or
whose HTTP status is 429 terminates paging at that page, keeping exactly
the records already collected and producing no failure; any other per-page
error skips only that page and paging continues with the next page; and in
the concrete scenario of a 5-page unit rate-limited on page 3, the unit
returns pages 1 and 2 only, cleanly, having fetched pages 1, 2, 3. -/
theorem claim_C3_page_error_classification :
    (∀ (α : Type) (fetch : Nat → FetchOutcome α) (page fuel : Nat)
        (acc : Option (List α)) (log : List Nat) (e : PageError),
      fetch page = .err e → isStopError e = true →
      pagingLoop fetch page (fuel + 1) acc log = (acc, log ++ [page]))
    ∧ (∀ (α : Type) (fetch : Nat → FetchOutcome α) (page fuel : Nat)
          (acc : Option (List α)) (log : List Nat) (e : PageError),
        fetch page = .err e → isStopError e = false →
        pagingLoop fetch page (fuel + 1) acc log =
          pagingLoop fetch (page + 1) fuel acc (log ++ [page]))
    ∧ (∀ (α : Type) (fetch : Nat → FetchOutcome α) (cfg : AutoSearchConfig)
          (r1 r2 : List α) (e : PageError),
        cfg.fetchMultiplePages = true ∨ cfg.fetchAllPages = true →
        cfg.fetchAllPages = true ∨ cfg.maxPages = 0 →
        fetch 1 = .ok ⟨some ⟨some 100, some 20⟩, some r1⟩ →
        r1.length = 20 →
        fetch 2 = .ok ⟨some ⟨some 100, some 20⟩, some r2⟩ →
        r2 ≠ [] →
        fetch 3 = .err e → e.status = some 429 →
        executeSearch cfg fetch = ⟨.ok (some (r1 ++ r2)), [1, 2, 3]⟩) := by
  refine ⟨?_, ?_, ?_⟩
  · intro α fetch page fuel acc log e hf hstop
    simp [pagingLoop, hf, hstop]
  · intro α fetch page fuel acc log e hf hstop
    simp [pagingLoop, hf, hstop]
  · intro α fetch cfg r1 r2 e hon huncap h1 hlen h2 hr2 h3 h429
    have htr : totalRecordsOf (⟨some ⟨some 100, some 20⟩, some r1⟩ : SearchResponse α) = 100 := by
      rfl
    have hrpp : recordsPerPageOf (⟨some ⟨some 100, some 20⟩, some r1⟩ : SearchResponse α) = 20 := by
      rfl
    have htp : totalPagesOf (⟨some ⟨some 100, some 20⟩, some r1⟩ : SearchResponse α) = 5 := by
      rw [totalPagesOf, htr, hrpp]
    have hpp : pagesToFetchOf cfg (⟨some ⟨some 100, some 20⟩, some r1⟩ : SearchResponse α) = 5 := by
      rw [pagesToFetchOf]
      rcases huncap with h | h <;> simp [h, htp]
    have hguard : ((cfg.fetchMultiplePages || cfg.fetchAllPages)
        && decide ((jsResults (⟨some ⟨some 100, some 20⟩, some r1⟩ : SearchResponse α)).length
          < totalRecordsOf (⟨some ⟨some 100, some 20⟩, some r1⟩ : SearchResponse α))) = true := by
      rcases hon with h | h <;> simp [h, htr, jsResults, hlen]
    have hstop : isStopError e = true := by
      simp [isStopError, h429]
    have hr2e : (r2.isEmpty : Bool) = false := by
      cases r2 with
      | nil => exact absurd rfl hr2
      | cons a t => rfl
    simp only [executeSearch, h1]
    rw [if_pos hguard]
    simp only [hpp]
    simp [pagingLoop, h2, h3, hstop, jsResults, hr2e]

/-- Fetch oracle for the C3 witness: pages 1 and 2 succeed with 20 records
each out of 100 total; page 3 fails with an HTTP 429 error. -/
def witnessFetchC3 : Nat → FetchOutcome Nat := fun n =>
  if n = 1 then .ok ⟨some ⟨some 100, some 20⟩, some (List.range 20)⟩
  else if n = 2 then .ok ⟨some ⟨some 100, some 20⟩, some (List.range 20)⟩
  else .err ⟨"Request failed with status code 429", some 429⟩

/-- C3 witness: the rate-limited 5-page scenario instantiated at an
explicit oracle — pages 1 and 2 kept, paging stops at page 3, no failure. -/
theorem claim_C3_witness :
    executeSearch ⟨false, true, 0⟩ witnessFetchC3 =
      ⟨.ok (some (List.range 20 ++ List.range 20)), [1, 2, 3]⟩ :=
  claim_C3_page_error_classification.2.2 Nat witnessFetchC3 ⟨false, true, 0⟩
    (List.range 20) (List.range 20) ⟨"Request failed with status code 429", some 429⟩
    (Or.inr rfl) (Or.inl rfl) rfl (by simp) rfl (by simp) rfl rfl

/-! ## Claim C4 -/

/-- The outcome entry recorded for the unit at zero-based index `i` whose
remote interaction is `f`. -/
def unitResultOf {α : Type} (cfg : AutoSearchConfig) (i : Nat)
    (f : Nat → FetchOutcome α) : UnitResult α :=
  match (executeSearch cfg f).outcome with
  | .ok recs => .ok recs
  | .error e => .failed (i + 1) e.message

/-- The per-configuration loop yields one entry per configuration, each
determined by its own index and oracle alone. -/
theorem runConfigsFrom_fst {α : Type} (cfg : AutoSearchConfig) :
    ∀ (l : List (Nat → FetchOutcome α)) (i : Nat),
      (runConfigsFrom cfg i l).1 = l.mapIdx fun j f => unitResultOf cfg (i + j) f := by
  intro l
  induction l with
  | nil => intro i; rfl
  | cons f rest ih =>
    intro i
    have harith : (fun (j : Nat) (g : Nat → FetchOutcome α) => unitResultOf cfg (i + 1 + j) g)
        = fun j g => unitResultOf cfg (i + (j + 1)) g := by
      funext j g
      rw [Nat.add_right_comm, Nat.add_assoc]
    simp only [runConfigsFrom, List.mapIdx_cons]
    rw [ih (i + 1), harith]
    cases hout : (executeSearch cfg f).outcome with
    | ok recs => simp [unitResultOf, hout]
    | error e => simp [unitResultOf, hout]

/-- The failure list of the per-configuration loop is exactly the failure
entries of the outcome list, in order. -/
theorem runConfigsFrom_snd {α : Type} (cfg : AutoSearchConfig) :
    ∀ (l : List (Nat → FetchOutcome α)) (i : Nat),
      (runConfigsFrom cfg i l).2 = (runConfigsFrom cfg i l).1.filterMap fun u =>
        match u with
        | UnitResult.failed j m => some (j, m)
        | UnitResult.ok _ => none := by
  intro l
  induction l with
  | nil => intro i; rfl
  | cons f rest ih =>
    intro i
    simp only [runConfigsFrom]
    cases hout : (executeSearch cfg f).outcome with
    | ok recs => simp [ih (i + 1)]
    | error e => simp [ih (i + 1)]

/-- C4: a run over an ordered list of unit configurations produces exactly
one outcome per configuration, in input order; each outcome is determined
by that unit's own index and oracle (so an earlier unit's failure cannot
prevent a later unit from being attempted); the failure list carries
exactly one descriptor per failed unit, in order; and the printed summary's
successes (total minus failures) plus failures equal the total. -/
theorem claim_C4_unit_independence :
    (∀ (α : Type) (cfg : AutoSearchConfig) (fetches : List (Nat → FetchOutcome α)),
      (executeByNumber cfg fetches).1.length = fetches.length)
    ∧ (∀ (α : Type) (cfg : AutoSearchConfig) (fetches : List (Nat → FetchOutcome α)),
        (executeByNumber cfg fetches).1 = fetches.mapIdx fun j f => unitResultOf cfg j f)
    ∧ (∀ (α : Type) (cfg : AutoSearchConfig) (fetches : List (Nat → FetchOutcome α)),
        (executeByNumber cfg fetches).2 = (executeByNumber cfg fetches).1.filterMap fun u =>
          match u with
          | UnitResult.failed j m => some (j, m)
          | UnitResult.ok _ => none)
    ∧ (∀ (α : Type) (cfg : AutoSearchConfig) (fetches : List (Nat → FetchOutcome α)),
        (executeByNumber cfg fetches).2.length ≤ fetches.length ∧
        (fetches.length - (executeByNumber cfg fetches).2.length)
          + (executeByNumber cfg fetches).2.length = fetches.length) := by
  have hfst : ∀ (α : Type) (cfg : AutoSearchConfig) (fetches : List (Nat → FetchOutcome α)),
      (executeByNumber cfg fetches).1 = fetches.mapIdx fun j f => unitResultOf cfg j f := by
    intro α cfg fetches
    simpa using runConfigsFrom_fst cfg fetches 0
  have hsnd : ∀ (α : Type) (cfg : AutoSearchConfig) (fetches : List (Nat → FetchOutcome α)),
      (executeByNumber cfg fetches).2 = (executeByNumber cfg fetches).1.filterMap fun u =>
        match u with
        | UnitResult.failed j m => some (j, m)
        | UnitResult.ok _ => none :=
    fun α cfg fetches => runConfigsFrom_snd cfg fetches 0
  have hlen : ∀ (α : Type) (cfg : AutoSearchConfig) (fetches : List (Nat → FetchOutcome α)),
      (executeByNumber cfg fetches).1.length = fetches.length := by
    intro α cfg fetches
    rw [hfst]
    simp
  refine ⟨hlen, hfst, hsnd, ?_⟩
  intro α cfg fetches
  have hle : (executeByNumber cfg fetches).2.length ≤ fetches.length := by
    rw [hsnd]
    calc ((executeByNumber cfg fetches).1.filterMap _).length
        ≤ (executeByNumber cfg fetches).1.length := List.length_filterMap_le _ _
      _ = fetches.length := hlen α cfg fetches
  exact ⟨hle, Nat.sub_add_cancel hle⟩

/-! ## Claim C9 -/

/-- C9: for any center latitude of magnitude below 90 degrees and positive
radius, the box has `minLat < centerLat < maxLat` with the latitude delta
applied symmetrically, and longitude bounds that are `centerLon ∓ delta`
up to the single-step ±180 wrap of adding or subtracting 360; and whenever
the cosine of the latitude (in radians) is exactly zero, the longitude
bounds degrade to the full range `[-180, 180]`. -/
theorem claim_C9_bounding_box :
    (∀ lat lon r : ℝ, |lat| < 90 → 0 < r →
      (calculateBoundingBox lat lon r).minLatitude < lat
      ∧ lat < (calculateBoundingBox lat lon r).maxLatitude
      ∧ lat - (calculateBoundingBox lat lon r).minLatitude
          = (calculateBoundingBox lat lon r).maxLatitude - lat
      ∧ ∃ δ : ℝ, 0 < δ
          ∧ ((calculateBoundingBox lat lon r).minLongitude = lon - δ
             ∨ (calculateBoundingBox lat lon r).minLongitude = lon - δ + 360)
          ∧ ((calculateBoundingBox lat lon r).maxLongitude = lon + δ
             ∨ (calculateBoundingBox lat lon r).maxLongitude = lon + δ - 360))
    ∧ (∀ lat lon r : ℝ, Real.cos (lat * (Real.pi / 180)) = 0 →
        (calculateBoundingBox lat lon r).minLongitude = -180
        ∧ (calculateBoundingBox lat lon r).maxLongitude = 180) := by
  constructor
  · intro lat lon r hlat hr
    have hpi : (0 : ℝ) < Real.pi := Real.pi_pos
    have hlat' := abs_lt.mp hlat
    have hcos : 0 < Real.cos (lat * (Real.pi / 180)) := by
      apply Real.cos_pos_of_mem_Ioo
      constructor
      · have h1 : -(90 : ℝ) * (Real.pi / 180) < lat * (Real.pi / 180) :=
          mul_lt_mul_of_pos_right hlat'.1 (by positivity)
        calc -(Real.pi / 2) = -(90 : ℝ) * (Real.pi / 180) := by ring
          _ < lat * (Real.pi / 180) := h1
      · have h2 : lat * (Real.pi / 180) < (90 : ℝ) * (Real.pi / 180) :=
          mul_lt_mul_of_pos_right hlat'.2 (by positivity)
        calc lat * (Real.pi / 180) < (90 : ℝ) * (Real.pi / 180) := h2
          _ = Real.pi / 2 := by ring
    have hdl : 0 < r / 6371000 * (180 / Real.pi) := by positivity
    rw [calculateBoundingBox]
    simp only [if_neg (ne_of_gt hcos)]
    refine ⟨by simpa using hdl, by simpa using hdl, by ring, ?_⟩
    refine ⟨r / 6371000 * (180 / Real.pi) / Real.cos (lat * (Real.pi / 180)),
      div_pos hdl hcos, ?_, ?_⟩
    · split
      · exact Or.inr rfl
      · exact Or.inl rfl
    · split
      · exact Or.inr rfl
      · exact Or.inl rfl
  · intro lat lon r hcos
    rw [calculateBoundingBox]
    simp [if_pos hcos]

/-- C9 witness: the general bounds at center latitude 0, longitude 10 and
radius 1000, and the degenerate full longitude range at latitude 90, where
the cosine is exactly zero. -/
theorem claim_C9_witness :
    ((calculateBoundingBox 0 10 1000).minLatitude < 0
      ∧ (0 : ℝ) < (calculateBoundingBox 0 10 1000).maxLatitude
      ∧ (0 : ℝ) - (calculateBoundingBox 0 10 1000).minLatitude
          = (calculateBoundingBox 0 10 1000).maxLatitude - 0
      ∧ ∃ δ : ℝ, 0 < δ
          ∧ ((calculateBoundingBox 0 10 1000).minLongitude = 10 - δ
             ∨ (calculateBoundingBox 0 10 1000).minLongitude = 10 - δ + 360)
          ∧ ((calculateBoundingBox 0 10 1000).maxLongitude = 10 + δ
             ∨ (calculateBoundingBox 0 10 1000).maxLongitude = 10 + δ - 360))
    ∧ ((calculateBoundingBox 90 20 1000).minLongitude = -180
      ∧ (calculateBoundingBox 90 20 1000).maxLongitude = 180) := by
  constructor
  · exact claim_C9_bounding_box.1 0 10 1000 (by norm_num) (by norm_num)
  · apply claim_C9_bounding_box.2 90 20 1000
    have h : (90 : ℝ) * (Real.pi / 180) = Real.pi / 2 := by ring
    rw [h, Real.cos_pi_div_two]

end Realtor
